import Mathlib

/-!
# Verification of `supervision/classification/core.py`

A shallow embedding of the `Classifications` data class and its helpers.

Modelling conventions:
* numpy floating-point scalars are modelled as `Rat` (the claims only use
  ordering and equality of plain decimal values, on which `Rat` agrees);
* a numpy array is modelled by `NDArray`: either a rank-1 vector or a
  rank-2 matrix (the only ranks the code distinguishes);
* `raise ValueError(msg)` is modelled by `Except.error (PyError.valueError msg)`;
* `np.argsort` (default kind) is modelled as a stable ascending index
  sort; numpy documents its default sort as unstable in general, but on
  arrays below its small-array insertion-sort cutoff — which covers every
  concrete scenario here — it is the stable insertion sort.  Universal
  theorems therefore state tie order only where a concrete input pins it,
  or in tie-order-agnostic form (an ordering sorted by value);
* numpy fancy indexing `a[order]` is modelled with `List.getD`; every
  index produced by `argsort` is in bounds for a validated value, so the
  default is never read there.
-/

deriving instance DecidableEq for Except

/-- A numpy array of rank 1 or rank 2, the only shapes the code meets. -/
inductive NDArray (α : Type) where
  | vec (data : List α)
  | mat (rows : List (List α))
deriving DecidableEq, Repr

namespace NDArray

/-- `a.shape` as numpy reports it (rows of a matrix have equal length). -/
def shape {α : Type} : NDArray α → List Nat
  | vec d => [d.length]
  | mat rows => [rows.length, (rows.headD []).length]

/-- Python `len(a)`: the size of the leading axis. -/
def pyLen {α : Type} : NDArray α → Nat
  | vec d => d.length
  | mat rows => rows.length

/-- The element list of a rank-1 array (a matrix is flattened; the code
only reads this from validated rank-1 arrays). -/
def data1d {α : Type} : NDArray α → List α
  | vec d => d
  | mat rows => rows.flatten

@[simp] theorem shape_vec {α : Type} (d : List α) : (vec d).shape = [d.length] := rfl

@[simp] theorem pyLen_vec {α : Type} (d : List α) : (vec d).pyLen = d.length := rfl

@[simp] theorem data1d_vec {α : Type} (d : List α) : (vec d).data1d = d := rfl

end NDArray

/-- A raised Python exception. The code only ever raises `ValueError`. -/
inductive PyError where
  | valueError (msg : String)
deriving DecidableEq, Repr

/-- The error the spec calls `InvalidShapeError`, for `class_id`. -/
def invalidShapeClassId : PyError :=
  .valueError "class_id must be 1d np.ndarray with (n, ) shape"

/-- The error the spec calls `InvalidShapeError`, for `confidence`. -/
def invalidShapeConfidence : PyError :=
  .valueError "confidence must be 1d np.ndarray with (n, ) shape"

/-- The error the spec calls `MissingConfidenceError`. -/
def missingConfidenceError : PyError :=
  .valueError "top_k could not be calculated, confidence is None"

/-- `_validate_class_ids(class_id, n)`: `class_id` must be a 1d ndarray of
shape `(n,)`.  (Every modelled value is an ndarray, so the `isinstance`
conjunct is the shape test.) -/
def validate_class_ids (class_id : NDArray Int) (n : Nat) : Bool :=
  class_id.shape == [n]

/-- `_validate_confidence(confidence, n)`: if present, `confidence` must be
a 1d ndarray of shape `(n,)`. -/
def validate_confidence (confidence : Option (NDArray Rat)) (n : Nat) : Bool :=
  match confidence with
  | none => true
  | some c => c.shape == [n]

/-- The `Classifications` dataclass fields. -/
structure Classifications where
  class_id : NDArray Int
  confidence : Option (NDArray Rat) := none
deriving DecidableEq, Repr

namespace Classifications

/-- Dataclass construction including `__post_init__` validation: first
`_validate_class_ids`, then `_validate_confidence`, each raising
`ValueError` on failure; on success the populated object. -/
def construct (class_id : NDArray Int) (confidence : Option (NDArray Rat)) :
    Except PyError Classifications :=
  let n := class_id.pyLen
  if validate_class_ids class_id n then
    if validate_confidence confidence n then
      .ok { class_id := class_id, confidence := confidence }
    else
      .error invalidShapeConfidence
  else
    .error invalidShapeClassId

/-- `__len__`: the number of classifications. -/
def length (c : Classifications) : Nat :=
  c.class_id.pyLen

end Classifications

/-- `np.arange n` as integer class ids. -/
def arangeI (n : Nat) : List Int :=
  (List.range n).map (Int.ofNat)

/-- The comparison `np.argsort` sorts indices by: ascending value. -/
def valLE (conf : List Rat) (i j : Nat) : Prop :=
  conf.getD i 0 ≤ conf.getD j 0

instance (conf : List Rat) : DecidableRel (valLE conf) :=
  fun _ _ => inferInstanceAs (Decidable (_ ≤ _))

instance (conf : List Rat) : IsTotal Nat (valLE conf) :=
  ⟨fun _ _ => le_total _ _⟩

instance (conf : List Rat) : IsTrans Nat (valLE conf) :=
  ⟨fun _ _ _ => le_trans⟩

/-- `np.argsort conf` (default kind): the indices `0, …, len conf - 1`
sorted by ascending value.  Stability is an idealization: numpy's default
sort is only stable below its small-array insertion-sort cutoff, which
covers the concrete inputs appearing in the theorems below. -/
def argsort (conf : List Rat) : List Nat :=
  List.insertionSort (valLE conf) (List.range conf.length)

/-- The key order of the descending ranking actually produced by
`np.argsort(conf)[::-1]`: index `i` comes before index `j` when
`(-conf[i], -i)` lexicographically precedes `(-conf[j], -j)`, i.e. higher
confidence first and, among equal confidences, higher original index
first. -/
def keyLE (conf : List Rat) (i j : Nat) : Prop :=
  conf.getD j 0 < conf.getD i 0 ∨ (conf.getD i 0 = conf.getD j 0 ∧ j ≤ i)

instance (conf : List Rat) : DecidableRel (keyLE conf) :=
  fun _ _ => inferInstanceAs (Decidable (_ ∨ _))

instance (conf : List Rat) : IsTotal Nat (keyLE conf) := by
  constructor
  intro i j
  rcases lt_trichotomy (conf.getD i 0) (conf.getD j 0) with h | h | h
  · exact Or.inr (Or.inl h)
  · rcases Nat.le_total i j with hij | hij
    · exact Or.inr (Or.inr ⟨h.symm, hij⟩)
    · exact Or.inl (Or.inr ⟨h, hij⟩)
  · exact Or.inl (Or.inl h)

instance (conf : List Rat) : IsTrans Nat (keyLE conf) := by
  constructor
  intro i j k hij hjk
  rcases hij with h1 | ⟨e1, l1⟩
  · rcases hjk with h2 | ⟨e2, l2⟩
    · exact Or.inl (h2.trans h1)
    · exact Or.inl (e2 ▸ h1)
  · rcases hjk with h2 | ⟨e2, l2⟩
    · exact Or.inl (lt_of_lt_of_le h2 (le_of_eq e1.symm))
    · exact Or.inr ⟨e1.trans e2, l2.trans l1⟩

instance (conf : List Rat) : IsAntisymm Nat (keyLE conf) := by
  constructor
  intro i j hij hji
  rcases hij with h1 | ⟨e1, l1⟩
  · rcases hji with h2 | ⟨e2, l2⟩
    · exact absurd h1 (lt_asymm h2)
    · exact absurd h1 (e2 ▸ lt_irrefl _)
  · rcases hji with h2 | ⟨e2, l2⟩
    · exact absurd h2 (e1 ▸ lt_irrefl _)
    · exact Nat.le_antisymm l2 l1

/-- The ranking the amended tie-break claim describes: all indices
`0, …, len conf - 1` sorted by the key `(-conf[i], -i)` ascending. -/
def specDescOrder (conf : List Rat) : List Nat :=
  List.insertionSort (keyLE conf) (List.range conf.length)

/-- Python slice `l[:k]`, including negative-`k` semantics
(`l[:k] = l[: len l + k]` when `k < 0`, empty when `len l + k ≤ 0`). -/
def npSliceTo {α : Type} (l : List α) (k : Int) : List α :=
  if 0 ≤ k then l.take k.toNat
  else l.take (l.length - (-k).toNat)

namespace Classifications

/-- `get_top_k(k)`: raise if `confidence is None`, else take the first `k`
entries of `np.argsort(confidence)[::-1]` and fancy-index both arrays. -/
def get_top_k (c : Classifications) (k : Int) :
    Except PyError (List Int × List Rat) :=
  match c.confidence with
  | none => .error missingConfidenceError
  | some confArr =>
    let conf := confArr.data1d
    let cid := c.class_id.data1d
    let order := (argsort conf).reverse
    let top_k_order := npSliceTo order k
    .ok (top_k_order.map (fun i => cid.getD i 0),
         top_k_order.map (fun i => conf.getD i 0))

/-- `from_clip`: the argument is the probability matrix produced by the
softmax/cpu/detach/numpy chain, of shape `(1, N)` per the input contract;
`class_id = arange(probs.shape[1])`, `confidence = probs[0]`. -/
def from_clip (probs : List (List Rat)) : Except PyError Classifications :=
  let class_ids := arangeI (probs.headD []).length
  let confidence := probs.headD []
  construct (NDArray.vec class_ids) (some (NDArray.vec confidence))

/-- `from_ultralytics`: the argument is the 1-d probability vector obtained
from `ultralytics_results.probs.data.cpu().numpy()`. -/
def from_ultralytics (confidence : List Rat) : Except PyError Classifications :=
  construct (NDArray.vec (arangeI confidence.length))
    (some (NDArray.vec confidence))

/-- `from_timm`: the argument is the 1-d vector obtained from
`timm_results.cpu().detach().numpy()[0]`; an empty vector takes the
explicit empty-result branch. -/
def from_timm (confidence : List Rat) : Except PyError Classifications :=
  if confidence.length = 0 then
    construct (NDArray.vec ([] : List Int)) (some (NDArray.vec ([] : List Rat)))
  else
    construct (NDArray.vec (arangeI confidence.length))
      (some (NDArray.vec confidence))

/-- The general path of `from_timm` (no empty-input special case), for
comparison with the explicit branch. -/
def from_timm_general (confidence : List Rat) : Except PyError Classifications :=
  construct (NDArray.vec (arangeI confidence.length))
    (some (NDArray.vec confidence))

end Classifications

/-! ## Helper lemmas -/

theorem arangeI_length (n : Nat) : (arangeI n).length = n := by
  simp [arangeI]

theorem construct_vec_some (cid : List Int) (conf : List Rat)
    (h : conf.length = cid.length) :
    Classifications.construct (.vec cid) (some (.vec conf)) =
      .ok ⟨.vec cid, some (.vec conf)⟩ := by
  simp [Classifications.construct, validate_class_ids, validate_confidence, h]

theorem construct_vec_none (cid : List Int) :
    Classifications.construct (.vec cid) none = .ok ⟨.vec cid, none⟩ := by
  simp [Classifications.construct, validate_class_ids, validate_confidence]

theorem from_clip_eq (row : List Rat) :
    Classifications.from_clip [row] =
      .ok ⟨.vec (arangeI row.length), some (.vec row)⟩ := by
  show Classifications.construct _ _ = _
  exact construct_vec_some _ _ (arangeI_length _).symm

theorem from_ultralytics_eq (v : List Rat) :
    Classifications.from_ultralytics v =
      .ok ⟨.vec (arangeI v.length), some (.vec v)⟩ :=
  construct_vec_some _ _ (arangeI_length _).symm

theorem from_timm_eq (w : List Rat) :
    Classifications.from_timm w =
      .ok ⟨.vec (arangeI w.length), some (.vec w)⟩ := by
  unfold Classifications.from_timm
  by_cases h : w.length = 0
  · have hw : w = [] := List.eq_nil_of_length_eq_zero h
    subst hw
    simp [arangeI, construct_vec_some]
  · rw [if_neg h]
    exact construct_vec_some _ _ (arangeI_length _).symm

theorem argsort_perm (conf : List Rat) :
    (argsort conf).Perm (List.range conf.length) :=
  List.perm_insertionSort _ _

theorem argsort_length (conf : List Rat) :
    (argsort conf).length = conf.length := by
  simpa using (argsort_perm conf).length_eq

theorem specDescOrder_length (conf : List Rat) :
    (specDescOrder conf).length = conf.length := by
  simp [specDescOrder]

theorem get_top_k_vec (cid : List Int) (conf : List Rat) (k : Int) :
    Classifications.get_top_k ⟨.vec cid, some (.vec conf)⟩ k =
      .ok ((npSliceTo (argsort conf).reverse k).map (fun i => cid.getD i 0),
           (npSliceTo (argsort conf).reverse k).map (fun i => conf.getD i 0)) :=
  rfl

theorem npSliceTo_nonneg {α : Type} (l : List α) {k : Int} (hk : 0 ≤ k) :
    npSliceTo l k = l.take k.toNat :=
  if_pos hk

theorem take_min_length {α : Type} (l : List α) (m : Nat) :
    l.take (min m l.length) = l.take m := by
  rcases Nat.le_total m l.length with h | h
  · rw [min_eq_left h]
  · rw [min_eq_right h, List.take_length, List.take_of_length_le h]

/-! ## Claims -/

/-- **C1** (amended): for every valid value with confidence present and
every `k ≥ 0`, `get_top_k k` returns the entries ordered by descending
confidence: the returned pair is the first `min(k, N)` of some ordering
of all indices that is sorted by descending confidence (which ordering
the code picks among equal confidences is `np.argsort`'s business and is
not the original input order); on the spec's tie-break scenario the
result is `([2,1,0], [0.9,0.5,0.5])`. -/
theorem get_top_k_desc_order :
    (∀ (cid : List Int) (conf : List Rat) (k : Int),
      cid.length = conf.length → 0 ≤ k →
      ∃ (ids : List Int) (confs : List Rat) (ord : List Nat),
        Classifications.get_top_k ⟨.vec cid, some (.vec conf)⟩ k =
          .ok (ids, confs) ∧
        ord.Perm (List.range conf.length) ∧
        ord.Pairwise (fun i j => conf.getD j 0 ≤ conf.getD i 0) ∧
        ids = (ord.take k.toNat).map (fun i => cid.getD i 0) ∧
        confs = (ord.take k.toNat).map (fun i => conf.getD i 0)) ∧
    Classifications.get_top_k
        ⟨.vec [0, 1, 2], some (.vec [mkRat 1 2, mkRat 1 2, mkRat 9 10])⟩ 3 =
      .ok ([2, 1, 0], [mkRat 9 10, mkRat 1 2, mkRat 1 2]) := by
  constructor
  · intro cid conf k hval hk
    refine ⟨_, _, (argsort conf).reverse, get_top_k_vec cid conf k,
      (argsort conf).reverse_perm.trans (argsort_perm conf), ?_, ?_, ?_⟩
    · exact List.pairwise_reverse.mpr
        (List.sorted_insertionSort (valLE conf) (List.range conf.length))
    · rw [npSliceTo_nonneg _ hk]
    · rw [npSliceTo_nonneg _ hk]
  · decide

/-- Witness for **C1** (amended) at the spec's tie-break scenario. -/
theorem get_top_k_desc_order_witness :
    ∃ (ids : List Int) (confs : List Rat) (ord : List Nat),
      Classifications.get_top_k
          ⟨.vec [0, 1, 2],
           some (.vec [mkRat 1 2, mkRat 1 2, mkRat 9 10])⟩ 3 =
        .ok (ids, confs) ∧
      ord.Perm (List.range
        ([mkRat 1 2, mkRat 1 2, mkRat 9 10] : List Rat).length) ∧
      ord.Pairwise (fun i j =>
        ([mkRat 1 2, mkRat 1 2, mkRat 9 10] : List Rat).getD j 0 ≤
          ([mkRat 1 2, mkRat 1 2, mkRat 9 10] : List Rat).getD i 0) ∧
      ids = (ord.take (3 : Int).toNat).map
        (fun i => ([0, 1, 2] : List Int).getD i 0) ∧
      confs = (ord.take (3 : Int).toNat).map
        (fun i => ([mkRat 1 2, mkRat 1 2, mkRat 9 10] : List Rat).getD i 0) :=
  get_top_k_desc_order.1 [0, 1, 2] [mkRat 1 2, mkRat 1 2, mkRat 9 10] 3
    rfl (by decide)

/-- Counterexample to **C1** as stated: on `class_id = [0,1,2]`,
`confidence = [0.5, 0.5, 0.9]`, `get_top_k 3` does *not* return
`([2,0,1], [0.9,0.5,0.5])`; it returns `([2,1,0], [0.9,0.5,0.5])`
(the tied pair comes out in descending original-index order). -/
theorem get_top_k_tie_break_counterexample :
    Classifications.get_top_k
        ⟨.vec [0, 1, 2], some (.vec [mkRat 1 2, mkRat 1 2, mkRat 9 10])⟩ 3 ≠
      .ok ([2, 0, 1], [mkRat 9 10, mkRat 1 2, mkRat 1 2]) ∧
    Classifications.get_top_k
        ⟨.vec [0, 1, 2], some (.vec [mkRat 1 2, mkRat 1 2, mkRat 9 10])⟩ 3 =
      .ok ([2, 1, 0], [mkRat 9 10, mkRat 1 2, mkRat 1 2]) := by
  decide

/-- **C2**: construction fails exactly when `class_id` is not a flat
rank-1 array whose shape matches its length, or `confidence` is present
and not flat of that length; every construction error is one of the two
`InvalidShapeError`s; a nested `(2,3)` `class_id` fails, and `class_id`
of length 3 with `confidence` of length 2 fails. -/
theorem construct_invalid_shape_iff :
    (∀ (cid : NDArray Int) (conf : Option (NDArray Rat)),
      (∃ e, Classifications.construct cid conf = .error e) ↔
        (cid.shape ≠ [cid.pyLen] ∨
          ∃ ca, conf = some ca ∧ ca.shape ≠ [cid.pyLen])) ∧
    (∀ (cid : NDArray Int) (conf : Option (NDArray Rat)) (e : PyError),
      Classifications.construct cid conf = .error e →
        e = invalidShapeClassId ∨ e = invalidShapeConfidence) ∧
    Classifications.construct (.mat [[0, 1, 2], [3, 4, 5]]) none =
      .error invalidShapeClassId ∧
    Classifications.construct (.vec [0, 1, 2])
      (some (.vec [mkRat 1 2, mkRat 1 2])) = .error invalidShapeConfidence := by
  refine ⟨?_, ?_, by decide, by decide⟩
  · intro cid conf
    constructor
    · rintro ⟨e, he⟩
      by_contra hcon
      push_neg at hcon
      obtain ⟨hshape, hconf⟩ := hcon
      have h1 : validate_class_ids cid cid.pyLen = true := by
        simp [validate_class_ids, hshape]
      have h2 : validate_confidence conf cid.pyLen = true := by
        cases conf with
        | none => rfl
        | some ca => simp [validate_confidence, hconf ca rfl]
      simp [Classifications.construct, h1, h2] at he
    · intro h
      rcases h with hshape | ⟨ca, hca, hshape⟩
      · have h1 : validate_class_ids cid cid.pyLen = false := by
          simp [validate_class_ids, hshape]
        exact ⟨invalidShapeClassId, by simp [Classifications.construct, h1]⟩
      · subst hca
        by_cases h1 : validate_class_ids cid cid.pyLen
        · have h2 : validate_confidence (some ca) cid.pyLen = false := by
            simp [validate_confidence, hshape]
          exact ⟨invalidShapeConfidence,
            by simp [Classifications.construct, h1, h2]⟩
        · exact ⟨invalidShapeClassId, by simp [Classifications.construct,
            Bool.not_eq_true _ ▸ h1]⟩
  · intro cid conf e he
    by_cases h1 : validate_class_ids cid cid.pyLen <;>
      by_cases h2 : validate_confidence conf cid.pyLen <;>
        simp [Classifications.construct, h1, h2] at he <;>
          simp [he]

/-- Witness for **C2**: the nested `(2,3)` `class_id` makes construction
fail. -/
theorem construct_invalid_shape_iff_witness :
    ∃ e, Classifications.construct (.mat [[0, 1, 2], [3, 4, 5]]) none =
      .error e :=
  (construct_invalid_shape_iff.1 (.mat [[0, 1, 2], [3, 4, 5]]) none).mpr
    (Or.inl (by decide))

/-- **C3**: with confidence present and `k ≥ 0`, `get_top_k k` returns a
pair of sequences each of length exactly `min(k, N)`: `k > N` clamps to
`N` without error and `k = 0` yields a pair of empty sequences. -/
theorem get_top_k_len_min (cid : List Int) (conf : List Rat) (k : Int)
    (hval : cid.length = conf.length) (hk : 0 ≤ k) :
    ∃ ids confs,
      Classifications.get_top_k ⟨.vec cid, some (.vec conf)⟩ k =
        .ok (ids, confs) ∧
      ids.length = min k.toNat cid.length ∧
      confs.length = min k.toNat cid.length ∧
      (k = 0 → ids = [] ∧ confs = []) := by
  refine ⟨_, _, get_top_k_vec cid conf k, ?_, ?_, ?_⟩
  · rw [npSliceTo_nonneg _ hk]
    simp [argsort_length, hval]
  · rw [npSliceTo_nonneg _ hk]
    simp [argsort_length, hval]
  · intro hk0
    subst hk0
    rw [npSliceTo_nonneg _ le_rfl]
    simp

/-- Witness for **C3** with `k = 10` exceeding `N = 3`. -/
theorem get_top_k_len_min_witness :
    ∃ ids confs,
      Classifications.get_top_k
          ⟨.vec [0, 1, 2],
           some (.vec [mkRat 1 10, mkRat 9 10, mkRat 3 10])⟩ 10 =
        .ok (ids, confs) ∧
      ids.length = min (10 : Int).toNat ([0, 1, 2] : List Int).length ∧
      confs.length = min (10 : Int).toNat ([0, 1, 2] : List Int).length ∧
      ((10 : Int) = 0 → ids = [] ∧ confs = []) :=
  get_top_k_len_min [0, 1, 2] [mkRat 1 10, mkRat 9 10, mkRat 3 10] 10
    rfl (by decide)

/-- **C4**: `get_top_k` fails with `MissingConfidenceError` if and only
if `confidence` is `None`, and that is the only error it can raise. -/
theorem get_top_k_missing_confidence_iff :
    ∀ (c : Classifications) (k : Int),
      (c.get_top_k k = .error missingConfidenceError ↔ c.confidence = none) ∧
      ∀ e, c.get_top_k k = .error e → e = missingConfidenceError := by
  intro c k
  obtain ⟨cid, conf⟩ := c
  cases conf with
  | none => simp [Classifications.get_top_k]
  | some ca => simp [Classifications.get_top_k]

/-- Witness for **C4** on a value whose confidence is absent. -/
theorem get_top_k_missing_confidence_iff_witness :
    Classifications.get_top_k ⟨.vec [0], none⟩ 1 =
      .error missingConfidenceError :=
  (get_top_k_missing_confidence_iff ⟨.vec [0], none⟩ 1).1.mpr rfl

/-- **C5**: `from_timm` on an empty vector yields a valid value with
`N = 0` whose confidence is present but empty, and `get_top_k 1` on it
returns two empty sequences without error. -/
theorem from_timm_empty_top_k :
    Classifications.from_timm [] = .ok ⟨.vec [], some (.vec [])⟩ ∧
    (⟨.vec [], some (.vec [])⟩ : Classifications).length = 0 ∧
    (⟨.vec [], some (.vec [])⟩ : Classifications).confidence = some (.vec []) ∧
    Classifications.get_top_k ⟨.vec [], some (.vec [])⟩ 1 = .ok ([], []) := by
  decide

/-- **C6**: `from_clip` on a `(1, N)` probability matrix returns
`class_id = arange(N)` and `confidence` equal to the single row; in
particular `[[0.2, 0.5, 0.3]]` yields `[0,1,2]` and `[0.2, 0.5, 0.3]`. -/
theorem from_clip_arange_and_row :
    (∀ row : List Rat,
      Classifications.from_clip [row] =
        .ok ⟨.vec (arangeI row.length), some (.vec row)⟩) ∧
    Classifications.from_clip [[mkRat 2 10, mkRat 5 10, mkRat 3 10]] =
      .ok ⟨.vec [0, 1, 2],
           some (.vec [mkRat 2 10, mkRat 5 10, mkRat 3 10])⟩ :=
  ⟨from_clip_eq, by decide⟩

/-- **C7**: every successfully constructed value has `len` equal to the
length of its `class_id`, whether or not confidence is present. -/
theorem construct_ok_length (cid : NDArray Int) (conf : Option (NDArray Rat))
    (c : Classifications) (h : Classifications.construct cid conf = .ok c) :
    c.length = cid.pyLen := by
  by_cases h1 : validate_class_ids cid cid.pyLen
  · by_cases h2 : validate_confidence conf cid.pyLen
    · simp [Classifications.construct, h1, h2] at h
      rw [← h]
      rfl
    · simp [Classifications.construct, h1, h2] at h
  · simp [Classifications.construct, h1] at h

/-- Witness for **C7** at a value constructed with `confidence = None`. -/
theorem construct_ok_length_witness :
    (⟨.vec [3, 7], none⟩ : Classifications).length = 2 :=
  construct_ok_length (.vec [3, 7]) none ⟨.vec [3, 7], none⟩ (by decide)

/-- **C8**: each adapter applied to an `N`-length (or `(1,N)`-shaped)
input returns a value of length exactly `N`. -/
theorem adapters_preserve_length (row v w : List Rat) :
    (Classifications.from_clip [row]).map Classifications.length =
      .ok row.length ∧
    (Classifications.from_ultralytics v).map Classifications.length =
      .ok v.length ∧
    (Classifications.from_timm w).map Classifications.length =
      .ok w.length := by
  refine ⟨?_, ?_, ?_⟩
  · rw [from_clip_eq]
    simp [Except.map, Classifications.length, arangeI_length]
  · rw [from_ultralytics_eq]
    simp [Except.map, Classifications.length, arangeI_length]
  · rw [from_timm_eq]
    simp [Except.map, Classifications.length, arangeI_length]

/-- **C9**: on the empty input the special-case branch of `from_timm`
produces exactly what the general path produces: the same valid empty
value. -/
theorem from_timm_empty_matches_general :
    Classifications.from_timm [] = Classifications.from_timm_general [] ∧
    Classifications.from_timm [] = .ok ⟨.vec [], some (.vec [])⟩ := by
  decide

